import Mathlib

set_option maxHeartbeats 1000000

/-!
Shallow embedding of the Prague-Rent-Predictor scraper
(`src/scraper/scrape.py`) together with theorems checking the
natural-language specification against it.

Conventions used throughout:
  * Python/JSON values appearing in attribute items, enumeration
    responses and record fields are modelled by `PyVal`
    (floating-point numbers are out of scope of the embedding;
    JSON numbers are modelled as integers).
  * Python dicts are modelled by association lists on `String` keys;
    `d.get(k, dflt)` becomes `(List.lookup k d).getD dflt`.
  * Network calls are modelled by `Except`-valued oracles handed to the
    pure loop bodies: a `requests.exceptions.RequestException` raised
    inside the `try` block is the `.error` case.
-/

/-- Python-level values as they occur in the scraper's JSON traffic:
`None`, strings, integers, booleans, lists, and string-keyed dicts. -/
inductive PyVal where
  | none
  | str (s : String)
  | int (n : Int)
  | bool (b : Bool)
  | list (elems : List PyVal)
  | dict (fields : List (String × PyVal))

/-- Python `repr` of a `PyVal` (string-escaping inside quotes is not
modelled; the scraper only ever applies it to plain text). Lists and
dicts render their elements with `repr`, as Python does. -/
def pyRepr : PyVal → String
  | .none => "None"
  | .str s => "'" ++ s ++ "'"
  | .int n => toString n
  | .bool b => if b then "True" else "False"
  | .list l =>
      "[" ++ String.intercalate ", " (l.attach.map (fun x => pyRepr x.1)) ++ "]"
  | .dict fs =>
      "\x7b" ++
        String.intercalate ", "
          (fs.attach.map (fun x => "'" ++ x.1.1 ++ "': " ++ pyRepr x.1.2)) ++
        "\x7d"
decreasing_by
  · have h := List.sizeOf_lt_of_mem x.2
    simp only [PyVal.list.sizeOf_spec]
    omega
  · have h := List.sizeOf_lt_of_mem x.2
    have h2 : sizeOf x.1.2 < sizeOf x.1 := by
      cases x.1 with
      | mk a b => simp only [Prod.mk.sizeOf_spec]; omega
    simp only [PyVal.dict.sizeOf_spec]
    omega

/-- Python `str()` of a `PyVal`: the identity on strings, `repr`-like
rendering on everything else (matching CPython). -/
def pyStr : PyVal → String
  | .str s => s
  | v => pyRepr v

/-- Python truthiness (`bool(v)`): `None`, `""`, `0`, `False`, `[]` and
the empty dict are falsy, everything else truthy. -/
def pyTruthy : PyVal → Bool
  | .none => false
  | .str s => !(s == "")
  | .int n => !(n == 0)
  | .bool b => b
  | .list l => !l.isEmpty
  | .dict d => !d.isEmpty

/-- Python `a or b`: `a` when truthy, else `b`. -/
def pyOr (a b : PyVal) : PyVal :=
  if pyTruthy a then a else b

/-- Python `v == s` for a string literal `s` on the right: only a
string with the same characters compares equal (no other `PyVal`
constructor is `==`-equal to a Python `str`). -/
def pyEqStr : PyVal → String → Bool
  | .str s, t => s == t
  | _, _ => false

/-- One element of the detail response's `items` list, as used by
`extract_attribute`: `item.get("name")` and `item.get("value")` both
default to `None`, so an absent key is represented by `PyVal.none`. -/
structure Item where
  name : PyVal
  value : PyVal

/-- Coercion applied by `extract_attribute` to each element of a
list-shaped value: `str(v.get("value", v) if isinstance(v, dict) else v)`. -/
def coerceElem (v : PyVal) : String :=
  match v with
  | .dict fs => pyStr ((List.lookup "value" fs).getD (.dict fs))
  | _ => pyStr v

/-- Normalization of a matched attribute value
(`scrape.py` lines 104-109): a list is comma-space-joined elementwise
via `coerceElem`; `None` becomes `""`; any other value is `str()`-ed. -/
def normValue (value : PyVal) : String :=
  match value with
  | .list elems => String.intercalate ", " (elems.map coerceElem)
  | .none => ""
  | v => pyStr v

/-- `extract_attribute(items, possible_names)` (`scrape.py` 100-110):
for each candidate name in order, for each item in order, the first
item whose `name` field `==` the candidate has its `value` normalized
and returned; with no match the result is `""`. -/
def extract_attribute (items : List Item) (possible_names : List String) : String :=
  match possible_names with
  | [] => ""
  | n :: rest =>
    match items.find? (fun it => pyEqStr it.name n) with
    | some it => normValue it.value
    | Option.none => extract_attribute items rest

/-- First item matched by the candidate-priority search of
`extract_attribute`: candidates tried in order, and for each candidate
the items in original order (`List.findSome?` / `List.find?` are
exactly this first-hit iteration order). -/
def firstMatch (items : List Item) (possible_names : List String) : Option Item :=
  possible_names.findSome? (fun n => items.find? (fun it => pyEqStr it.name n))

/-- Characters matched by Python's regex `\s` and stripped by
`str.strip()` (ASCII whitespace; exotic unicode spaces are outside the
embedding's scope). -/
def pyIsSpace (c : Char) : Bool :=
  c == ' ' || c == '\t' || c == '\n' || c == '\r' || c == '\x0b' || c == '\x0c'

/-- Python `str.strip()`: drop whitespace from both ends. -/
def pyStrip (s : String) : String :=
  String.mk (((s.data.dropWhile pyIsSpace).reverse.dropWhile pyIsSpace).reverse)

/-- Substring test, Python's `needle in hay` on strings. -/
def containsSub (needle : List Char) : List Char → Bool
  | [] => needle.isEmpty
  | c :: t => needle.isPrefixOf (c :: t) || containsSub needle t

/-- Python `str.lower()`, characterwise (`str.lower` on the ASCII range;
the inputs at hand contain no uppercase characters outside it). -/
def pyLower (s : String) : List Char :=
  s.data.map Char.toLower

/-- Match of the room pattern `(\d\+(?:kk|1|2|3))` (with `re.IGNORECASE`)
anchored at the start of `cs`, returning the matched text in its
original case.  The alternation tries `kk` first, then `1`, `2`, `3`,
as `re` does; `\d` is an ASCII digit here. -/
def roomsAt (cs : List Char) : Option String :=
  match cs with
  | c :: '+' :: rest =>
    if c.isDigit then
      match rest with
      | a :: b :: _ =>
        if a.toLower == 'k' && b.toLower == 'k' then Option.some (String.mk [c, '+', a, b])
        else if a == '1' || a == '2' || a == '3' then Option.some (String.mk [c, '+', a])
        else Option.none
      | [a] =>
        if a == '1' || a == '2' || a == '3' then Option.some (String.mk [c, '+', a])
        else Option.none
      | [] => Option.none
    else Option.none
  | _ => Option.none

/-- `re.search` scan for the room pattern: leftmost match wins. -/
def searchRooms : List Char → Option String
  | [] => Option.none
  | c :: rest =>
    match roomsAt (c :: rest) with
    | Option.some m => Option.some m
    | Option.none => searchRooms rest

/-- `extract_rooms_from_name(name)` (`scrape.py` 113-121): regex search
for `(\d\+(?:kk|1|2|3))` case-insensitively; failing that, `"atypicky"`
if `"atypick"` occurs in the lowercased name; else `""`.  The argument
is a string (`str(name)` in the source is the identity then). -/
def extract_rooms_from_name (name : String) : String :=
  match searchRooms name.data with
  | Option.some m => m
  | Option.none =>
    if containsSub "atypick".data (pyLower name) then "atypicky" else ""

/-- Match of `(\d+)\s*m[²2]` anchored at the start of `cs`, returning
the digit group.  Greedy `\d+`/`\s*` need no backtracking here: giving
back a digit leaves a digit where `m` is required, giving back a space
leaves a space there, so both fail, exactly as in `re`. -/
def sizeAt (cs : List Char) : Option String :=
  let ds := cs.takeWhile Char.isDigit
  if ds.isEmpty then Option.none
  else
    match (cs.drop ds.length).dropWhile pyIsSpace with
    | 'm' :: x :: _ => if x == '²' || x == '2' then Option.some (String.mk ds) else Option.none
    | ['m'] => Option.none
    | _ => Option.none

/-- `re.search` scan for the size pattern. -/
def searchSize : List Char → Option String
  | [] => Option.none
  | c :: rest =>
    match sizeAt (c :: rest) with
    | Option.some m => Option.some m
    | Option.none => searchSize rest

/-- `extract_size_from_name(name)` (`scrape.py` 124-128): first match of
`(\d+)\s*m[²2]`, else `""`. -/
def extract_size_from_name (name : String) : String :=
  match searchSize name.data with
  | Option.some m => m
  | Option.none => ""

/-- Match of `Praha\s+(\d+)` anchored at the start of `cs`, returning
the digit group (same no-backtracking argument as for `sizeAt`). -/
def districtAt (cs : List Char) : Option String :=
  match cs with
  | 'P' :: 'r' :: 'a' :: 'h' :: 'a' :: rest =>
    let sp := rest.takeWhile pyIsSpace
    if sp.isEmpty then Option.none
    else
      let ds := (rest.drop sp.length).takeWhile Char.isDigit
      if ds.isEmpty then Option.none else Option.some (String.mk ds)
  | _ => Option.none

/-- `re.search` scan for the district pattern. -/
def searchDistrict : List Char → Option String
  | [] => Option.none
  | c :: rest =>
    match districtAt (c :: rest) with
    | Option.some m => Option.some m
    | Option.none => searchDistrict rest

/-- `parse_district(locality_text)` (`scrape.py` 131-135): search for
`Praha\s+(\d+)` and return `f"Praha {group}"` (single space), else `""`. -/
def parse_district (locality_text : String) : String :=
  match searchDistrict locality_text.data with
  | Option.some ds => "Praha " ++ ds
  | Option.none => ""

/-- Match of `Praha\s+\d+\s*-\s*(.+)` anchored at the start of `cs`,
returning the stripped group.  `.` does not cross a newline.  When the
greedy `\s*` after `-` leaves nothing for `(.+)`, `re` backtracks into
that whitespace; the group then consists of whitespace only and strips
to `""` — such a backtracked match exists iff the whitespace run holds
a character other than `'\n'`. -/
def neighborhoodAt (cs : List Char) : Option String :=
  match cs with
  | 'P' :: 'r' :: 'a' :: 'h' :: 'a' :: rest =>
    let sp1 := rest.takeWhile pyIsSpace
    if sp1.isEmpty then Option.none
    else
      let r1 := rest.drop sp1.length
      let ds := r1.takeWhile Char.isDigit
      if ds.isEmpty then Option.none
      else
        let r2 := (r1.drop ds.length)
        let r3 := r2.drop (r2.takeWhile pyIsSpace).length
        match r3 with
        | '-' :: r4 =>
          let sp3 := r4.takeWhile pyIsSpace
          let grp := (r4.drop sp3.length).takeWhile (fun c => !(c == '\n'))
          if !grp.isEmpty then Option.some (pyStrip (String.mk grp))
          else if sp3.any (fun c => !(c == '\n')) then Option.some ""
          else Option.none
        | _ => Option.none
  | _ => Option.none

/-- `re.search` scan for the neighborhood pattern. -/
def searchNeighborhood : List Char → Option String
  | [] => Option.none
  | c :: rest =>
    match neighborhoodAt (c :: rest) with
    | Option.some m => Option.some m
    | Option.none => searchNeighborhood rest

/-- `parse_neighborhood(locality_text)` (`scrape.py` 138-142): search for
`Praha\s+\d+\s*-\s*(.+)`, return the stripped group, else `""`. -/
def parse_neighborhood (locality_text : String) : String :=
  match searchNeighborhood locality_text.data with
  | Option.some m => m
  | Option.none => ""

/-- The static synonym table `ATTRIBUTE_MAP` (`scrape.py` 29-46), in the
dict's insertion order. -/
def ATTRIBUTE_MAP : List (String × List String) := [
  ("size_m2", ["Užitná ploch", "Užitná plocha", "Celková plocha", "Plocha", "Obytná plocha"]),
  ("floor", ["Podlaží"]),
  ("building_type", ["Stavba", "Typ budovy"]),
  ("condition", ["Stav objektu", "Stav"]),
  ("furnished", ["Vybavení", "Vybaveno"]),
  ("elevator", ["Výtah"]),
  ("balcony", ["Balkón", "Balkon"]),
  ("terrace", ["Terasa"]),
  ("energy_rating", ["Energetická náročnost budovy", "PENB"]),
  ("ownership", ["Vlastnictví"]),
  ("parking", ["Parkování"]),
  ("cellar", ["Sklep"]),
  ("loggia", ["Lodžie", "Lodžia"]),
  ("heating", ["Topení"]),
  ("apartment_type", ["Typ bytu"]),
  ("note_about_price", ["Poznámka k ceně"])]

/-- The fixed output schema `CSV_COLUMNS` (`scrape.py` 48-54). -/
def CSV_COLUMNS : List String := [
  "scrape_date", "hash_id", "name", "locality", "district", "neighborhood",
  "price_czk", "size_m2", "rooms", "floor", "building_type", "condition",
  "furnished", "elevator", "balcony", "terrace", "energy_rating",
  "ownership", "parking", "cellar", "loggia", "heating", "apartment_type",
  "note_about_price"]

/-- The `basic_info` dict built during enumeration (`scrape.py` 85-90).
`name` and `locality` are strings per the data model; the two price
fields keep their raw Python value (`None` when absent). -/
structure BasicInfo where
  name : String
  locality : String
  price : PyVal
  price_czk : PyVal

/-- `detail.get(k, "")` on the detail dict produced by
`get_listing_detail`, whose values are all strings. -/
def detailGet (detail : List (String × String)) (k : String) : String :=
  (List.lookup k detail).getD ""

/-- An in-memory Canonical Record: the `listing` dict of `scrape.py`
237-258, keys in insertion order. -/
abbrev Record : Type := List (String × PyVal)

/-- Construction of the `listing` dict (`scrape.py` 237-256): the eight
initial fields, then `size_m2` (API value if truthy, else derived from
the name), then every `ATTRIBUTE_MAP` column not yet present, defaulted
to `""`. -/
def buildListing (scrape_date hash_id : String) (b : BasicInfo)
    (detail : List (String × String)) : Record :=
  let listing : List (String × PyVal) := [
    ("scrape_date", .str scrape_date),
    ("hash_id", .str hash_id),
    ("name", .str b.name),
    ("locality", .str b.locality),
    ("district", .str (parse_district b.locality)),
    ("neighborhood", .str (parse_neighborhood b.locality)),
    ("price_czk", pyOr b.price b.price_czk),
    ("rooms", .str (extract_rooms_from_name b.name))]
  let api_size := detailGet detail "size_m2"
  let listing := listing ++
    [("size_m2", .str (if api_size == "" then extract_size_from_name b.name else api_size))]
  ATTRIBUTE_MAP.foldl
    (fun l p =>
      if (List.lookup p.1 l).isSome then l
      else l ++ [(p.1, PyVal.str (detailGet detail p.1))])
    listing

/-- Serialization of one cell by Python's `csv` writer: `None` becomes
the empty string, strings are written as-is, anything else is `str()`-ed. -/
def csvField : PyVal → String
  | .none => ""
  | .str s => s
  | v => pyStr v

/-- One `csv.DictWriter.writerow` call with `fieldnames=CSV_COLUMNS`
(`save_to_csv`, `scrape.py` 167-176): a key outside the schema raises
`ValueError`; otherwise one cell per column, in `CSV_COLUMNS` order,
with missing keys written as the rest value `""`. -/
def dictWriterRow (record : Record) : Except String (List String) :=
  if (record.all fun p => CSV_COLUMNS.contains p.1) then
    .ok (CSV_COLUMNS.map fun c =>
      match List.lookup c record with
      | some v => csvField v
      | Option.none => "")
  else .error "ValueError: dict contains fields not in fieldnames"

/-- One row of a CSV file as read back by `csv.DictReader`: an
association of the header's column names to string cells. -/
abbrev Row : Type := List (String × String)

/-- `row.get("hash_id", "")`: the dedup key of a row — `""` both when
the column is absent and when the cell is empty. -/
def rowHashId (row : Row) : String :=
  (List.lookup "hash_id" row).getD ""

/-- The row loop of `merge_data_files` (`scrape.py` 279-283) over the
concatenated rows of all selected files, carrying the `seen_ids` set:
a row is kept exactly when its key has not been seen before. -/
def mergeGo : List Row → List String → List Row
  | [], _ => []
  | row :: rest, seen =>
    let h := rowHashId row
    if h ∈ seen then mergeGo rest seen
    else row :: mergeGo rest (h :: seen)

/-- Python `s.startswith(t)`. -/
def pyStartsWith (s t : String) : Bool :=
  t.data.isPrefixOf s.data

/-- Python `s.endswith(t)`. -/
def pyEndsWith (s t : String) : Bool :=
  t.data.isSuffixOf s.data

/-- The file-name filter of `merge_data_files` (`scrape.py` 266): keep
`sreality_*.csv` files except the combined output itself. -/
def isMergeInput (filename : String) : Bool :=
  pyStartsWith filename "sreality_" && pyEndsWith filename ".csv" &&
    !(filename == "sreality_combined.csv")

/-- `merge_data_files` (`scrape.py` 265-290) on a directory listing
(filename, parsed rows): select the input files, then keep the first
row seen for each `hash_id` across their concatenated rows.  The
returned list is what is written to `sreality_combined.csv`; its length
is the reported unique-listing count. -/
def merge_data_files (dir : List (String × List Row)) : List Row :=
  mergeGo ((dir.filter fun f => isMergeInput f.1).map Prod.snd).flatten []

/-- Modelled from the spec's merge-phase words, for comparison with
`merge_data_files`: "read all rows in file order, keep the first row
seen for each identifier (subsequent duplicates across files or within
a file are dropped)". -/
def keepFirst : List Row → List Row
  | [] => []
  | row :: rest =>
    row :: keepFirst (rest.filter fun r => !(rowHashId r == rowHashId row))
termination_by l => l.length
decreasing_by
  have := List.length_filter_le (fun r => !(rowHashId r == rowHashId row)) rest
  simp only [List.length_cons]
  omega

/-- The file-name filter of `load_existing_ids` (`scrape.py` 62): all
`sreality_*.csv` files (the combined file included). -/
def isIdSourceFile (filename : String) : Bool :=
  pyStartsWith filename "sreality_" && pyEndsWith filename ".csv"

/-- The set-insertion step of `load_existing_ids` (`scrape.py` 66-69):
`if hash_id: existing_ids.add(str(hash_id))` — a falsy (empty) id is
never added.  The set is modelled as a duplicate-free list. -/
def addId (acc : List String) (row : Row) : List String :=
  let h := rowHashId row
  if h == "" then acc
  else if h ∈ acc then acc else acc ++ [h]

/-- `load_existing_ids` (`scrape.py` 56-71) on a directory listing: the
identifiers collected from every `sreality_*.csv` file.  A missing
directory is the empty listing, giving the empty set. -/
def load_existing_ids (dir : List (String × List Row)) : List String :=
  (((dir.filter fun f => isIdSourceFile f.1).map Prod.snd).flatten).foldl addId []

/-- The candidate filter of `scrape_sreality` (`scrape.py` 212-218):
when the existing-id set is nonempty, keep the candidate pairs whose
identifier is not in it (a list comprehension, preserving order);
an empty set leaves the list untouched. -/
def filterNewListings {α : Type} (existing : List String)
    (cands : List (String × α)) : List (String × α) :=
  if existing.isEmpty then cands
  else cands.filter fun p => !(existing.contains p.1)

/-- The result handling of `get_listing_ids(page)` (`scrape.py` 73-97):
a successful request yields its parsed listing pairs; a
`RequestException` is caught, a warning is printed, and the empty list
is returned. -/
def get_listing_ids {α : Type} (response : Except String (List α)) : List α :=
  match response with
  | .ok listings => listings
  | .error _ => []

/-- The enumeration loop of `scrape_sreality` (`scrape.py` 197-204):
pages `page, page+1, ...` for `fuel` iterations; a page whose listing
list is empty (end of data or failed request alike) stops the loop. -/
def collectPages {α : Type} (fetch : Nat → Except String (List α)) :
    Nat → Nat → List α
  | _, 0 => []
  | page, fuel + 1 =>
    let listings := get_listing_ids (fetch page)
    if listings.isEmpty then []
    else listings ++ collectPages fetch (page + 1) fuel

/-- Pointwise update of a page oracle, to compare a run in which one
request fails with a run in which the same page is merely empty. -/
def overrideFetch {α : Type} (fetch : Nat → Except String (List α))
    (p : Nat) (r : Except String (List α)) : Nat → Except String (List α) :=
  fun q => if q = p then r else fetch q

/-- The result handling of `get_listing_detail(hash_id)`
(`scrape.py` 145-164): a successful request yields the detail dict with
one normalized string per `ATTRIBUTE_MAP` column; a `RequestException`
is caught and the empty dict is returned. -/
def get_listing_detail (response : Except String (List Item)) :
    List (String × String) :=
  match response with
  | .ok items => ATTRIBUTE_MAP.map fun p => (p.1, extract_attribute items p.2)
  | .error _ => []

/-- The detail loop of `scrape_sreality` (`scrape.py` 227-258): for each
remaining (hash_id, basic_info) pair, fetch the detail through the
oracle; a falsy (empty) detail dict skips the listing entirely,
otherwise the Canonical Record is built and appended. -/
def processListings (fetchDetail : String → Except String (List Item))
    (scrape_date : String) : List (String × BasicInfo) → List Record
  | [] => []
  | (hash_id, basic_info) :: rest =>
    let detail := get_listing_detail (fetchDetail hash_id)
    if detail.isEmpty then processListings fetchDetail scrape_date rest
    else buildListing scrape_date hash_id basic_info detail ::
      processListings fetchDetail scrape_date rest

/-- `estate.get("price", None)` of the enumeration response
(`scrape.py` 88). -/
def enumPrice (estate : List (String × PyVal)) : PyVal :=
  (List.lookup "price" estate).getD PyVal.none

/-- `estate.get("price_czk", {}).get("value_raw", None)` of the
enumeration response (`scrape.py` 89): the second `.get` is a dict
method, so a non-dict `price_czk` value raises `AttributeError`
(modelled as the `.error` case, since `except` only catches
`RequestException`). -/
def enumPriceCzkRaw (estate : List (String × PyVal)) : Except String PyVal :=
  match (List.lookup "price_czk" estate).getD (PyVal.dict []) with
  | .dict fs => .ok ((List.lookup "value_raw" fs).getD PyVal.none)
  | _ => .error "AttributeError"

theorem extract_attribute_eq_firstMatch (items : List Item) (names : List String) :
    extract_attribute items names =
      ((firstMatch items names).map fun it => normValue it.value).getD "" := by
  induction names with
  | nil => rfl
  | cons n rest ih =>
    simp only [extract_attribute, firstMatch, List.findSome?_cons]
    cases h : items.find? (fun it => pyEqStr it.name n) with
    | none => simpa [firstMatch] using ih
    | some it => rfl

/-- C1: for every list of attribute items and every ordered list of
candidate labels, `extract_attribute` returns the normalized string
value of the first item whose label exactly equals a candidate —
candidates tried in order and, for each candidate, items in original
order (`firstMatch` is exactly that search) — and when no candidate
matches any item's label it returns the empty string (it is a total
function, so it never fails). -/
theorem extract_attribute_first_match_spec (items : List Item) (names : List String) :
    extract_attribute items names =
        ((firstMatch items names).map fun it => normValue it.value).getD "" ∧
      ((∀ n ∈ names, ∀ it ∈ items, pyEqStr it.name n = false) →
        extract_attribute items names = "") := by
  refine ⟨extract_attribute_eq_firstMatch items names, fun h => ?_⟩
  rw [extract_attribute_eq_firstMatch]
  have hm : firstMatch items names = Option.none := by
    unfold firstMatch
    rw [List.findSome?_eq_none_iff]
    intro n hn
    rw [List.find?_eq_none]
    intro it hit
    simp [h n hn it hit]
  rw [hm]
  rfl

theorem C1_witness :
    extract_attribute [⟨PyVal.str "x", PyVal.str "v"⟩] ["a", "b"] = "" :=
  (extract_attribute_first_match_spec [⟨PyVal.str "x", PyVal.str "v"⟩] ["a", "b"]).2
    (by decide)

/-- C2: whenever the first matching item's value is a list, the result
of `extract_attribute` is the comma-space join of the elements' coerced
string forms in original element order, where a dict element is coerced
through its "value" sub-field and any other element directly
(`coerceElem`). -/
theorem extract_attribute_list_join (items : List Item) (names : List String)
    (it : Item) (elems : List PyVal)
    (hm : firstMatch items names = some it) (hv : it.value = PyVal.list elems) :
    extract_attribute items names =
      String.intercalate ", " (elems.map coerceElem) := by
  rw [extract_attribute_eq_firstMatch, hm]
  simp [normValue, hv]

theorem C2_witness :
    extract_attribute
        [⟨PyVal.str "Vybavení",
          PyVal.list [PyVal.str "lednice", PyVal.dict [("value", PyVal.str "pračka")]]⟩]
        ["Vybavení"] = "lednice, pračka" := by
  rw [extract_attribute_list_join
    [⟨PyVal.str "Vybavení",
      PyVal.list [PyVal.str "lednice", PyVal.dict [("value", PyVal.str "pračka")]]⟩]
    ["Vybavení"]
    ⟨PyVal.str "Vybavení",
      PyVal.list [PyVal.str "lednice", PyVal.dict [("value", PyVal.str "pračka")]]⟩
    [PyVal.str "lednice", PyVal.dict [("value", PyVal.str "pračka")]] rfl rfl]
  simp [coerceElem, pyStr]
  decide

theorem mergeGo_eq_keepFirst (l : List Row) (seen : List String) :
    mergeGo l seen = keepFirst (l.filter fun r => decide (rowHashId r ∉ seen)) := by
  induction l generalizing seen with
  | nil => simp [keepFirst, mergeGo]
  | cons row rest ih =>
    by_cases h : rowHashId row ∈ seen
    · rw [show mergeGo (row :: rest) seen = mergeGo rest seen by
        simp only [mergeGo, if_pos h]]
      rw [show (row :: rest).filter (fun r => decide (rowHashId r ∉ seen)) =
          rest.filter (fun r => decide (rowHashId r ∉ seen)) by
        simp [List.filter_cons, h]]
      exact ih seen
    · have hp : ∀ r : Row,
          decide (rowHashId r ∉ rowHashId row :: seen) =
            (!(rowHashId r == rowHashId row) && decide (rowHashId r ∉ seen)) := by
        intro r
        by_cases h1 : rowHashId r = rowHashId row
        · simp [h1, List.mem_cons]
        · by_cases h2 : rowHashId r ∈ seen
          · simp [h1, h2, List.mem_cons]
          · simp [h1, h2, List.mem_cons]
      rw [show mergeGo (row :: rest) seen = row :: mergeGo rest (rowHashId row :: seen) by
        simp only [mergeGo, if_neg h]]
      rw [show (row :: rest).filter (fun r => decide (rowHashId r ∉ seen)) =
          row :: rest.filter (fun r => decide (rowHashId r ∉ seen)) by
        simp [List.filter_cons, h]]
      rw [show keepFirst (row :: rest.filter fun r => decide (rowHashId r ∉ seen)) =
          row :: keepFirst ((rest.filter fun r => decide (rowHashId r ∉ seen)).filter
            fun r => !(rowHashId r == rowHashId row)) by
        simp only [keepFirst]]
      rw [List.filter_filter, ih (rowHashId row :: seen)]
      congr 1
      exact congrArg keepFirst (List.filter_congr fun r _ => hp r)

theorem merge_data_files_eq_keepFirst (dir : List (String × List Row)) :
    merge_data_files dir =
      keepFirst ((dir.filter fun f => isMergeInput f.1).map Prod.snd).flatten := by
  unfold merge_data_files
  rw [mergeGo_eq_keepFirst]
  congr 1
  have hp : (fun r : Row => decide (rowHashId r ∉ ([] : List String))) =
      fun _ : Row => true := by
    funext r
    simp
  rw [hp, List.filter_true]

/-- C3: `merge_data_files` reads all rows of the selected files in file
order and keeps exactly the first row seen for each identifier
(`keepFirst`, phrased from the spec, drops every later row with the
same key, within or across files); in particular the two-file scenario
with identifiers A,B in the first file and B,C in the second yields
three rows with B's row taken from the first file. -/
theorem merge_first_seen_dedup (dir : List (String × List Row)) :
    merge_data_files dir =
        keepFirst ((dir.filter fun f => isMergeInput f.1).map Prod.snd).flatten ∧
      merge_data_files
          [("sreality_a.csv",
             [[("hash_id", "A"), ("note", "1")], [("hash_id", "B"), ("note", "first")]]),
           ("sreality_b.csv",
             [[("hash_id", "B"), ("note", "second")], [("hash_id", "C"), ("note", "2")]])] =
        [[("hash_id", "A"), ("note", "1")], [("hash_id", "B"), ("note", "first")],
          [("hash_id", "C"), ("note", "2")]] :=
  ⟨merge_data_files_eq_keepFirst dir, by decide⟩

/-- C4: the filter phase keeps exactly the candidate pairs whose
identifier is not in the existing-id set, in their original relative
order: the output is a sublist of the input (order preserved), and
membership and multiplicity match the not-in-set predicate exactly. -/
theorem filterNewListings_spec {α : Type} [DecidableEq α]
    (existing : List String) (cands : List (String × α)) :
    (filterNewListings existing cands).Sublist cands ∧
      (∀ p : String × α,
        p ∈ filterNewListings existing cands ↔ p ∈ cands ∧ p.1 ∉ existing) ∧
      ∀ p : String × α,
        (filterNewListings existing cands).count p =
          if p.1 ∈ existing then 0 else cands.count p := by
  unfold filterNewListings
  by_cases he : existing.isEmpty
  · rw [if_pos he]
    have hnil : existing = [] := List.isEmpty_iff.mp he
    subst hnil
    exact ⟨List.Sublist.refl _, fun p => by simp, fun p => by simp⟩
  · rw [if_neg he]
    refine ⟨List.filter_sublist _, fun p => ?_, fun p => ?_⟩
    · rw [List.mem_filter]
      simp [List.contains, List.elem_iff]
    · by_cases hp : p.1 ∈ existing
      · rw [if_pos hp, List.count_eq_zero, List.mem_filter]
        simp [List.contains, List.elem_iff, hp]
      · rw [if_neg hp, List.count_filter]
        simp [List.contains, List.elem_iff, hp]

/-- C5: running the merge a second time over the directory as it stands
after the first run — now also holding the first merge's combined
output under its fixed name `sreality_combined.csv` — produces the very
same deduplicated rows, and in particular the same unique-identifier
count, re-introducing no duplicates (the combined file is excluded from
the merge inputs by name). -/
theorem merge_second_run_same_count (dir : List (String × List Row)) :
    merge_data_files (dir ++ [("sreality_combined.csv", merge_data_files dir)]) =
        merge_data_files dir ∧
      (merge_data_files (dir ++ [("sreality_combined.csv", merge_data_files dir)])).length =
        (merge_data_files dir).length := by
  have hsel : ∀ rows : List Row,
      (dir ++ [("sreality_combined.csv", rows)]).filter (fun f => isMergeInput f.1) =
        dir.filter (fun f => isMergeInput f.1) := by
    intro rows
    rw [List.filter_append]
    simp [isMergeInput]
  have heq : merge_data_files (dir ++ [("sreality_combined.csv", merge_data_files dir)]) =
      merge_data_files dir := by
    unfold merge_data_files
    rw [hsel]
  exact ⟨heq, by rw [heq]⟩

theorem buildListing_eq (scrape_date hash_id : String) (b : BasicInfo)
    (detail : List (String × String)) :
    buildListing scrape_date hash_id b detail = [
      ("scrape_date", .str scrape_date),
      ("hash_id", .str hash_id),
      ("name", .str b.name),
      ("locality", .str b.locality),
      ("district", .str (parse_district b.locality)),
      ("neighborhood", .str (parse_neighborhood b.locality)),
      ("price_czk", pyOr b.price b.price_czk),
      ("rooms", .str (extract_rooms_from_name b.name)),
      ("size_m2", .str (if detailGet detail "size_m2" == "" then extract_size_from_name b.name
        else detailGet detail "size_m2")),
      ("floor", .str (detailGet detail "floor")),
      ("building_type", .str (detailGet detail "building_type")),
      ("condition", .str (detailGet detail "condition")),
      ("furnished", .str (detailGet detail "furnished")),
      ("elevator", .str (detailGet detail "elevator")),
      ("balcony", .str (detailGet detail "balcony")),
      ("terrace", .str (detailGet detail "terrace")),
      ("energy_rating", .str (detailGet detail "energy_rating")),
      ("ownership", .str (detailGet detail "ownership")),
      ("parking", .str (detailGet detail "parking")),
      ("cellar", .str (detailGet detail "cellar")),
      ("loggia", .str (detailGet detail "loggia")),
      ("heating", .str (detailGet detail "heating")),
      ("apartment_type", .str (detailGet detail "apartment_type")),
      ("note_about_price", .str (detailGet detail "note_about_price"))] := by
  simp [buildListing, ATTRIBUTE_MAP, List.foldl_cons, List.foldl_nil,
    List.lookup_cons, List.lookup_nil]

theorem buildListing_keys (scrape_date hash_id : String) (b : BasicInfo)
    (detail : List (String × String)) :
    (buildListing scrape_date hash_id b detail).map Prod.fst = [
      "scrape_date", "hash_id", "name", "locality", "district", "neighborhood",
      "price_czk", "rooms", "size_m2", "floor", "building_type", "condition",
      "furnished", "elevator", "balcony", "terrace", "energy_rating",
      "ownership", "parking", "cellar", "loggia", "heating", "apartment_type",
      "note_about_price"] := by
  rw [buildListing_eq]
  rfl

theorem dictWriterRow_ok (record : Record)
    (h : (record.all fun p => CSV_COLUMNS.contains p.1) = true) :
    dictWriterRow record = Except.ok (CSV_COLUMNS.map fun c =>
      csvField ((List.lookup c record).getD (PyVal.str ""))) := by
  unfold dictWriterRow
  rw [if_pos h]
  congr 1
  apply List.map_congr_left
  intro c _
  cases List.lookup c record with
  | none => rfl
  | some v => rfl

/-- C6: every persisted row carries exactly the fixed column set — the
record's keys are a permutation of `CSV_COLUMNS` and the writer emits
one cell per `CSV_COLUMNS` entry, in that order, so every row has the
same column count — and an unresolved field is the empty string in the
persisted row, never null and never omitted: every field other than
`price_czk` holds a string (empty when unresolved), and an unresolved
price, `None` in memory, is serialized as `""` by the CSV writer. -/
theorem persisted_row_fixed_columns (scrape_date hash_id : String) (b : BasicInfo)
    (detail : List (String × String)) :
    ((buildListing scrape_date hash_id b detail).map Prod.fst).Perm CSV_COLUMNS ∧
      dictWriterRow (buildListing scrape_date hash_id b detail) =
        Except.ok (CSV_COLUMNS.map fun c =>
          csvField ((List.lookup c (buildListing scrape_date hash_id b detail)).getD
            (PyVal.str ""))) ∧
      (CSV_COLUMNS.map fun c =>
        csvField ((List.lookup c (buildListing scrape_date hash_id b detail)).getD
          (PyVal.str ""))).length = CSV_COLUMNS.length ∧
      (∀ c ∈ CSV_COLUMNS, c ≠ "price_czk" →
        ∃ s, List.lookup c (buildListing scrape_date hash_id b detail) =
          some (PyVal.str s)) ∧
      (b.price = PyVal.none → b.price_czk = PyVal.none →
        List.lookup "price_czk" (buildListing scrape_date hash_id b detail) =
          some PyVal.none ∧
        csvField ((List.lookup "price_czk"
          (buildListing scrape_date hash_id b detail)).getD (PyVal.str "")) = "") := by
  refine ⟨?_, ?_, ?_, ?_, ?_⟩
  · rw [buildListing_keys]
    decide
  all_goals rw [buildListing_eq]
  · apply dictWriterRow_ok
    simp [CSV_COLUMNS, List.all_cons, List.contains]
  · simp [CSV_COLUMNS]
  · intro c hc hne
    fin_cases hc
    all_goals first
      | exact absurd rfl hne
      | exact ⟨_, rfl⟩
  · intro h1 h2
    rw [h1, h2]
    exact ⟨rfl, rfl⟩

theorem C6_witness :
    (∃ s, List.lookup "name"
        (buildListing "2024-01-01" "h1" ⟨"nm", "loc", PyVal.none, PyVal.none⟩ []) =
      some (PyVal.str s)) ∧
      List.lookup "price_czk"
          (buildListing "2024-01-01" "h1" ⟨"nm", "loc", PyVal.none, PyVal.none⟩ []) =
        some PyVal.none := by
  have h := persisted_row_fixed_columns "2024-01-01" "h1"
    ⟨"nm", "loc", PyVal.none, PyVal.none⟩ []
  exact ⟨h.2.2.2.1 "name" (by decide) (by decide), (h.2.2.2.2 rfl rfl).1⟩

/-- C9: the record's `price_czk` field is the enumeration's `price`
value when that value is truthy and otherwise the enumeration's
`price_czk.value_raw` value; a price of `0` is falsy and falls through
to the fallback, and when both are `None` the field is `None` — not the
empty string. -/
theorem price_czk_fallback (scrape_date hash_id name locality : String)
    (detail : List (String × String)) (estate : List (String × PyVal)) (raw : PyVal)
    (h : enumPriceCzkRaw estate = .ok raw) :
    (List.lookup "price_czk"
        (buildListing scrape_date hash_id ⟨name, locality, enumPrice estate, raw⟩ detail) =
      some (if pyTruthy (enumPrice estate) then enumPrice estate else raw)) ∧
      pyTruthy (PyVal.int 0) = false ∧
      (enumPrice estate = PyVal.none → raw = PyVal.none →
        List.lookup "price_czk"
            (buildListing scrape_date hash_id ⟨name, locality, enumPrice estate, raw⟩
              detail) =
          some PyVal.none ∧ PyVal.none ≠ PyVal.str "") := by
  have hl : List.lookup "price_czk"
      (buildListing scrape_date hash_id ⟨name, locality, enumPrice estate, raw⟩ detail) =
      some (pyOr (enumPrice estate) raw) := by
    rw [buildListing_eq]
    rfl
  refine ⟨by rw [hl]; rfl, rfl, fun h1 h2 => ⟨?_, fun hcon => PyVal.noConfusion hcon⟩⟩
  rw [hl, h1, h2]
  rfl

theorem C9_witness :
    List.lookup "price_czk"
        (buildListing "d" "h" ⟨"n", "l",
          enumPrice [("price", PyVal.int 0),
            ("price_czk", PyVal.dict [("value_raw", PyVal.int 12000)])],
          PyVal.int 12000⟩ []) = some (PyVal.int 12000) := by
  have h := price_czk_fallback "d" "h" "n" "l" []
    [("price", PyVal.int 0), ("price_czk", PyVal.dict [("value_raw", PyVal.int 12000)])]
    (PyVal.int 12000) rfl
  rw [h.1]
  rfl

/-- C7: the room-count extractor returns "2+kk" for "2+kk byt", the
fixed token "atypicky" for "Atypický mezonet" (the pattern is absent
but the atypical-layout substring is present), and the empty string for
"garsoniéra". -/
theorem rooms_extractor_examples :
    extract_rooms_from_name "2+kk byt" = "2+kk" ∧
      extract_rooms_from_name "Atypický mezonet" = "atypicky" ∧
      extract_rooms_from_name "garsoniéra" = "" :=
  ⟨by decide, by decide, by decide⟩

theorem collectPages_congr {α : Type} (f g : Nat → Except String (List α))
    (h : ∀ q, get_listing_ids (f q) = get_listing_ids (g q)) :
    ∀ start fuel, collectPages f start fuel = collectPages g start fuel := by
  intro start fuel
  induction fuel generalizing start with
  | zero => rfl
  | succ n ih =>
    simp only [collectPages, h start, ih (start + 1)]

/-- C8: transient request errors are recovered locally and never
escalated: a failed enumeration request yields the empty list, and the
paging loop behaves identically to hitting an empty page there; a
failed detail fetch yields an empty result and the processing loop
skips that listing entirely, emitting no partial record and making no
retry. -/
theorem transient_errors_recovered :
    (∀ e : String, get_listing_ids (α := String × BasicInfo) (Except.error e) = []) ∧
      (∀ (fetch : Nat → Except String (List (String × BasicInfo))) (p : Nat) (e : String)
          (start fuel : Nat),
        collectPages (overrideFetch fetch p (Except.error e)) start fuel =
          collectPages (overrideFetch fetch p (Except.ok [])) start fuel) ∧
      (∀ e : String, get_listing_detail (Except.error e) = []) ∧
      (∀ (fetchDetail : String → Except String (List Item)) (scrape_date hash_id : String)
          (b : BasicInfo) (rest : List (String × BasicInfo)) (e : String),
        fetchDetail hash_id = Except.error e →
          processListings fetchDetail scrape_date ((hash_id, b) :: rest) =
            processListings fetchDetail scrape_date rest) := by
  refine ⟨fun e => rfl, ?_, fun e => rfl, ?_⟩
  · intro fetch p e start fuel
    apply collectPages_congr
    intro q
    unfold overrideFetch
    by_cases hq : q = p
    · rw [if_pos hq, if_pos hq]
      rfl
    · rw [if_neg hq, if_neg hq]
  · intro fetchDetail scrape_date hash_id b rest e he
    simp [processListings, he, get_listing_detail]

theorem C8_witness :
    processListings (fun _ => Except.error "boom") "2024-01-01"
        [("A", ⟨"n", "l", PyVal.none, PyVal.none⟩)] = [] := by
  have h := transient_errors_recovered.2.2.2 (fun _ => Except.error "boom") "2024-01-01"
    "A" ⟨"n", "l", PyVal.none, PyVal.none⟩ [] "boom" rfl
  exact h.trans rfl

theorem mergeGo_ids_nodup (l : List Row) : ∀ seen : List String,
    ((mergeGo l seen).map rowHashId).Nodup ∧
      ∀ i ∈ (mergeGo l seen).map rowHashId, i ∉ seen := by
  induction l with
  | nil =>
    intro seen
    simp [mergeGo]
  | cons row rest ih =>
    intro seen
    by_cases h : rowHashId row ∈ seen
    · rw [show mergeGo (row :: rest) seen = mergeGo rest seen by
        simp only [mergeGo, if_pos h]]
      exact ih seen
    · rw [show mergeGo (row :: rest) seen = row :: mergeGo rest (rowHashId row :: seen) by
        simp only [mergeGo, if_neg h]]
      obtain ⟨hnd, hdisj⟩ := ih (rowHashId row :: seen)
      refine ⟨?_, ?_⟩
      · rw [List.map_cons, List.nodup_cons]
        exact ⟨fun hmem => (hdisj _ hmem) (List.mem_cons_self _ _), hnd⟩
      · rw [List.map_cons]
        intro i hi
        rcases List.mem_cons.mp hi with h1 | h1
        · rw [h1]
          exact h
        · exact fun hs => (hdisj i h1) (List.mem_cons_of_mem _ hs)

theorem mergeGo_keeps_first (l : List Row) : ∀ (seen : List String) (i : String) (r : Row),
    i ∉ seen → l.find? (fun row => rowHashId row == i) = some r → r ∈ mergeGo l seen := by
  induction l with
  | nil =>
    intro seen i r _ hf
    simp at hf
  | cons row rest ih =>
    intro seen i r hi hf
    cases hmatch : rowHashId row == i with
    | true =>
      simp only [List.find?_cons, hmatch] at hf
      injection hf with hf
      subst hf
      have hrow : rowHashId row ∉ seen := by
        rw [eq_of_beq hmatch]
        exact hi
      rw [show mergeGo (row :: rest) seen = row :: mergeGo rest (rowHashId row :: seen) by
        simp only [mergeGo, if_neg hrow]]
      exact List.mem_cons_self _ _
    | false =>
      simp only [List.find?_cons, hmatch] at hf
      by_cases h : rowHashId row ∈ seen
      · rw [show mergeGo (row :: rest) seen = mergeGo rest seen by
          simp only [mergeGo, if_pos h]]
        exact ih seen i r hi hf
      · rw [show mergeGo (row :: rest) seen = row :: mergeGo rest (rowHashId row :: seen) by
          simp only [mergeGo, if_neg h]]
        refine List.mem_cons_of_mem _ (ih _ i r ?_ hf)
        intro hmem
        rcases List.mem_cons.mp hmem with h1 | h1
        · rw [h1, beq_self_eq_true] at hmatch
          exact Bool.true_eq_false.mp hmatch
        · exact hi h1

theorem foldl_addId_no_empty (rows : List Row) : ∀ acc : List String,
    "" ∉ acc → "" ∉ rows.foldl addId acc := by
  induction rows with
  | nil =>
    intro acc h
    exact h
  | cons row rest ih =>
    intro acc h
    rw [List.foldl_cons]
    apply ih
    simp only [addId]
    by_cases h1 : (rowHashId row == "") = true
    · rw [if_pos h1]
      exact h
    · rw [if_neg h1]
      by_cases h2 : rowHashId row ∈ acc
      · rw [if_pos h2]
        exact h
      · rw [if_neg h2]
        intro hmem
        rcases List.mem_append.mp hmem with hm | hm
        · exact h hm
        · have heq := List.mem_singleton.mp hm
          rw [show rowHashId row = "" from heq.symm] at h1
          exact h1 (beq_self_eq_true _)

theorem foldl_addId_skip : ∀ rows : List Row, (∀ r ∈ rows, rowHashId r = "") →
    ∀ acc : List String, rows.foldl addId acc = acc := by
  intro rows
  induction rows with
  | nil =>
    intro _ acc
    rfl
  | cons row rest ih =>
    intro h acc
    rw [List.foldl_cons,
      show addId acc row = acc by simp [addId, h row (List.mem_cons_self _ _)]]
    exact ih (fun r hr => h r (List.mem_cons_of_mem _ hr)) acc

theorem merge_empty_id_rows_le_one (dir : List (String × List Row)) :
    ((merge_data_files dir).filter fun r => rowHashId r == "").length ≤ 1 := by
  have hnd := (mergeGo_ids_nodup
    ((dir.filter fun f => isMergeInput f.1).map Prod.snd).flatten []).1
  calc ((merge_data_files dir).filter fun r => rowHashId r == "").length
      = List.countP (fun r => rowHashId r == "") (merge_data_files dir) :=
        (List.countP_eq_length_filter _ _).symm
    _ = List.countP (fun s => s == "") ((merge_data_files dir).map rowHashId) := by
        rw [List.countP_map]
        rfl
    _ = List.count "" ((merge_data_files dir).map rowHashId) := by
        rw [List.count_eq_countP]
    _ ≤ 1 := List.nodup_iff_count_le_one.mp hnd ""

/-- C10: rows with a missing or empty `hash_id` are deduplicated by the
merge under the single key `""`: at most one identifier-less row
survives any merge, and the first such row encountered shadows all
later ones; while the existing-identifier loader never adds the empty
identifier to its set, and identifier-less rows in prior files leave
the loaded set — and hence the filter phase — unchanged. -/
theorem empty_hash_id_handling :
    (∀ dir : List (String × List Row),
        ((merge_data_files dir).filter fun r => rowHashId r == "").length ≤ 1) ∧
      (∀ (dir : List (String × List Row)) (r : Row),
        ((dir.filter fun f => isMergeInput f.1).map Prod.snd).flatten.find?
            (fun row => rowHashId row == "") = some r →
          r ∈ merge_data_files dir ∧
            ∀ r' ∈ merge_data_files dir, rowHashId r' = "" → r' = r) ∧
      (∀ dir : List (String × List Row), "" ∉ load_existing_ids dir) ∧
      (∀ (dir : List (String × List Row)) (filename : String) (rows : List Row),
        (∀ r ∈ rows, rowHashId r = "") →
          load_existing_ids (dir ++ [(filename, rows)]) = load_existing_ids dir) := by
  refine ⟨merge_empty_id_rows_le_one, ?_, ?_, ?_⟩
  · intro dir r hf
    have hin : r ∈ merge_data_files dir :=
      mergeGo_keeps_first _ [] "" r (by simp) hf
    refine ⟨hin, ?_⟩
    intro r' hr' hid
    have hnd := (mergeGo_ids_nodup
      ((dir.filter fun f => isMergeInput f.1).map Prod.snd).flatten []).1
    have hp := List.find?_some hf
    have hrid : rowHashId r = "" := eq_of_beq (by simpa using hp)
    exact List.inj_on_of_nodup_map hnd hr' hin (by rw [hid, hrid])
  · intro dir
    exact foldl_addId_no_empty _ [] (by simp)
  · intro dir filename rows h
    unfold load_existing_ids
    rw [List.filter_append]
    by_cases hf : isIdSourceFile filename = true
    · rw [show List.filter (fun f => isIdSourceFile f.1) [(filename, rows)] =
          [(filename, rows)] by simp [hf]]
      rw [List.map_append, List.flatten_append, List.foldl_append]
      simp only [List.map_cons, List.map_nil, List.flatten_cons, List.flatten_nil,
        List.append_nil]
      exact foldl_addId_skip rows h _
    · rw [show List.filter (fun f => isIdSourceFile f.1) [(filename, rows)] = [] by
        simp [hf]]
      simp

theorem C10_witness :
    ([("hash_id", ""), ("note", "x")] : Row) ∈ merge_data_files
        [("sreality_a.csv",
          [[("hash_id", ""), ("note", "x")], [("hash_id", ""), ("note", "y")]])] ∧
      load_existing_ids ([("sreality_a.csv", [[("hash_id", "A")]])] ++
          [("sreality_b.csv", [[("hash_id", "")]])]) =
        load_existing_ids [("sreality_a.csv", [[("hash_id", "A")]])] := by
  refine ⟨(empty_hash_id_handling.2.1 _ [("hash_id", ""), ("note", "x")] (by decide)).1,
    empty_hash_id_handling.2.2.2 _ "sreality_b.csv" [[("hash_id", "")]] (by decide)⟩
